import Mathlib

/-!
# Verification of the recon versioning/operation engine

Shallow embedding of the core of the `recon` repository: structural hashing
(`recon/hashing.py`), the content-addressable example store (`recon/store.py`),
the operation-execution engine (`recon/operations/core.py`), dataset-level
apply/rollback/load reconciliation (`recon/dataset.py`), the corpus wrapper
(`recon/corpus.py`) and the spaCy preprocessor cache (`recon/preprocess.py`).

Modelling conventions:
* A Python `xxhash` digest is modelled as the tuple of exactly the fields the
  source feeds into `_hash`.  This is faithful in the direction the code
  relies on: equal hashed fields produce equal byte streams and hence equal
  digests.  The converse is NOT faithful and no theorem below uses it: the
  source serializes each int field as `bytes(n)` (n zero bytes) and
  concatenates all fields unseparated, so some distinct field tuples (e.g.
  spans `(start=0, end=3)` and `(start=1, end=2)` with equal label/text) feed
  identical byte streams and collide deterministically, and distinct byte
  streams collide with xxh64's residual probability.  Hash inequalities are
  therefore asserted only at concrete values whose real byte streams differ
  (distinct "with overwhelming probability", as the code assumes).
* Python dicts are modelled as insertion-ordered association lists with unique
  keys; Python sets as insertion-ordered duplicate-free lists.
* Mutable attributes (`Dataset._data`, `ExampleStore._map`, …) are modelled by
  explicit state passing; the `ExampleStore` shared by the datasets of a
  `Corpus` is a single store value threaded through every dataset operation.
* Exceptions (`ValueError`, `KeyError`) are modelled with `Except`.
-/

/-- `Token` from `recon/types.py`: token with offsets into the example text. -/
structure Token where
  text : String
  start : Nat
  end_ : Nat
  id : Nat
deriving DecidableEq, Repr

/-- `Span` from `recon/types.py`: entity span in an example.  `end` is a Lean
keyword, written `end_`. -/
structure Span where
  text : String
  start : Nat
  end_ : Nat
  label : String
  token_start : Option Nat := none
  token_end : Option Nat := none
  kb_id : Option String := none
  source : Option String := none
deriving DecidableEq, Repr

/-- `Example` from `recon/types.py`: annotated text record.  `meta` holds
arbitrary JSON values in the source; it is modelled as string key/value pairs,
which is enough because no hashed or claim-relevant code path inspects the
values. -/
structure Example where
  text : String
  spans : List Span
  tokens : Option (List Token) := none
  meta : List (String × String) := []
deriving DecidableEq, Repr

/-- Canonical content fed by `span_hash` (`recon/hashing.py`, lines 23-41) into
the digest: `(span.start, span.end, span.label, span.text,
span.token_start if span.token_start else 0, span.token_end if span.token_end
else 0)`.  Python truthiness sends both `None` and `0` to `0`, which
`Option.getD 0` reproduces.  The digest is modelled as this tuple itself:
faithful for the equal-fields-imply-equal-digest direction only, since the
source's unseparated `bytes(n)` serialization lets some distinct tuples
collide deterministically (see the header); no theorem uses the converse. -/
structure SpanHashData where
  start : Nat
  end_ : Nat
  label : String
  text : String
  token_start : Nat
  token_end : Nat
deriving DecidableEq, Repr

/-- `span_hash` from `recon/hashing.py`. -/
def span_hash (span : Span) : SpanHashData :=
  { start := span.start
    end_ := span.end_
    label := span.label
    text := span.text
    token_start := span.token_start.getD 0
    token_end := span.token_end.getD 0 }

/-- Canonical content fed by `example_hash` (`recon/hashing.py`, lines 44-55)
into the digest: `(example.text,) + tuple(span_hash(span) for span in
example.spans)`.  Tokens and meta are not part of the hash in the source.
Like `SpanHashData`, this tuple model is faithful only in the
equal-content-implies-equal-digest direction (the source digests the text and
span hex digests concatenated without separators). -/
structure ExampleHashData where
  text : String
  span_hashes : List SpanHashData
deriving DecidableEq, Repr

/-- `example_hash` from `recon/hashing.py`: hashes the text and the span
hashes, nothing else. -/
def example_hash (e : Example) : ExampleHashData :=
  { text := e.text
    span_hashes := e.spans.map span_hash }

/-- Canonical content fed by `dataset_hash` (`recon/hashing.py`, lines 77-90)
into the digest: `(dataset.name,) + tuple(example_hash(e) for e in
dataset.data)`. -/
structure DatasetHashData where
  name : String
  example_hashes : List ExampleHashData
deriving DecidableEq, Repr

/-- `dataset_hash` from `recon/hashing.py`, with the dataset's name and active
data passed explicitly. -/
def dataset_hash (name : String) (data : List Example) : DatasetHashData :=
  { name := name
    example_hashes := data.map example_hash }

/-! ## ExampleStore (`recon/store.py`) -/

/-- `ExampleStore` from `recon/store.py`.  `_map : Dict[int, Example]` is a
Python dict keyed by example hashes; it is modelled as an insertion-ordered
association list whose keys are kept unique by `add`. -/
structure ExampleStore where
  map : List (ExampleHashData × Example)
deriving DecidableEq, Repr

/-- `ExampleStore.__contains__`: whether a hash is a key of the map (the
source also accepts an `Example` and hashes it first; callers in the modelled
code always pass a hash or an example's hash). -/
def ExampleStore.contains (s : ExampleStore) (h : ExampleHashData) : Bool :=
  s.map.any (fun p => p.1 = h)

/-- Dict lookup `ExampleStore.__getitem__`, `None` when absent (the source
raises `KeyError`; callers below turn `none` into the error). -/
def ExampleStore.get (s : ExampleStore) (h : ExampleHashData) : Option Example :=
  (s.map.find? (fun p => p.1 = h)).map (fun p => p.2)

/-- `ExampleStore.__len__`. -/
def ExampleStore.size (s : ExampleStore) : Nat :=
  s.map.length

/-- `ExampleStore.add`: computes the example's hash and inserts only if the
hash is not already a key (idempotent dedup).  The `model_copy(deep=True)` of
the source is the identity under value semantics. -/
def ExampleStore.add (s : ExampleStore) (e : Example) : ExampleStore :=
  let example_hash' := example_hash e
  if s.contains example_hash' then s else ⟨s.map ++ [(example_hash', e)]⟩

/-- Python `del store._map[h]` for a key known to be present; removal of the
unique binding of `h`. -/
def ExampleStore.erase (s : ExampleStore) (h : ExampleHashData) : ExampleStore :=
  ⟨s.map.filter (fun p => p.1 ≠ h)⟩

/-- `ExampleStore.__init__`: starts empty and `add`s every example. -/
def ExampleStore.ofList (examples : List Example) : ExampleStore :=
  examples.foldl ExampleStore.add ⟨[]⟩

/-- One parsed line of a record-store file, `{ "example_hash": ...,
"example": ... }` as written by `ExampleStore.to_disk` (`recon/store.py`,
lines 68-81).  The stored hash is modelled as a hash value; a corrupted line
is one whose `example_hash` field disagrees with the recomputed hash of its
`example` payload. -/
structure StoreLine where
  example_hash : ExampleHashData
  example_ : Example
deriving DecidableEq, Repr

/-- `ExampleStore.from_disk` (`recon/store.py`, lines 49-66): for every line it
reads only `e["example"]`, reconstructs the `Example` and `add`s it.  The
stored `example_hash` field is never read, no hash is recomputed for
comparison, and no error is ever raised. -/
def ExampleStore.from_disk (s : ExampleStore) (lines : List StoreLine) : ExampleStore :=
  lines.foldl (fun acc l => acc.add l.example_) s

/-! ## Transformation log types (`recon/types.py`) -/

/-- `TransformationType` from `recon/types.py`. -/
inductive TransformationType where
  | EXAMPLE_ADDED
  | EXAMPLE_REMOVED
  | EXAMPLE_CHANGED
deriving DecidableEq, Repr

/-- `Transformation` from `recon/types.py`: optional previous/new example
hashes plus a type tag.  The source field `example` is a Lean keyword, written
`example_`. -/
structure Transformation where
  prev_example : Option ExampleHashData := none
  example_ : Option ExampleHashData := none
  type : TransformationType
deriving DecidableEq, Repr

/-- `OperationStatus` from `recon/types.py`. -/
inductive OperationStatus where
  | NOT_STARTED
  | IN_PROGRESS
  | COMPLETED
  | NEEDS_TOKENIZATION
deriving DecidableEq, Repr

/-- `OperationState` from `recon/types.py`.  `args`, `kwargs`, `batch` and the
timestamp `ts` carry no information used by any modelled code path and are
omitted.  `priv_status` models the stray `_status` instance attribute that
`Dataset.from_disk` writes: on a pydantic v2 model, assigning to an undeclared
underscore attribute stores it on the instance without touching the `status`
field, so the source's reset loop changes `_status` while readers of
`op.status` keep seeing the old value. -/
structure OperationState where
  name : String
  status : OperationStatus := OperationStatus.NOT_STARTED
  examples_added : Nat := 0
  examples_removed : Nat := 0
  examples_changed : Nat := 0
  transformations : List Transformation := []
  priv_status : Option OperationStatus := none
deriving DecidableEq, Repr

/-- `DatasetOperationsState` from `recon/types.py`: the persisted dataset state
document. -/
structure DatasetOperationsState where
  name : String
  commit : DatasetHashData
  size : Nat
  operations : List OperationState
deriving DecidableEq, Repr

/-! ## Operation engine (`recon/operations/core.py`) -/

/-- The duck-typed return value of an operation callable, checked by
`Operation.__call__` (`recon/operations/core.py`, lines 249-265):
`None` (drop), a list of examples (split), or a single example (replace). -/
inductive OpRes where
  | noneRes
  | single (e : Example)
  | multiple (res : List Example)

/-- `Operation` from `recon/operations/core.py`: a named transform with its
`handles_tokens` capability flag.  Preprocessors (`pre`) and the
args/kwargs-validation step are not modelled: the spaCy preprocessor is
modelled separately below, and no claim depends on argument binding, so the
modelled `op` is the callable with its parameter values already applied. -/
structure Operation where
  name : String
  handles_tokens : Bool
  op : Example → OpRes

/-- The per-example token check of `Operation.__call__` (lines 200-204):
`e.tokens or any((s.token_start or s.token_end) for s in e.spans)` with Python
truthiness (`None` and `0` are falsy, the empty list is falsy). -/
def exampleHasTokens (e : Example) : Bool :=
  (match e.tokens with
   | some (_ :: _) => true
   | _ => false)
  || e.spans.any (fun s => s.token_start.getD 0 ≠ 0 || s.token_end.getD 0 ≠ 0)

/-- Working state of the engine loop: the growing `new_data` list, the growing
`state.transformations` list, and the shared example store mutated by the
`track_*` callbacks. -/
structure EngineAcc where
  newData : List Example
  transforms : List Transformation
  store : ExampleStore
deriving Repr

/-- `track_add_example` (`recon/operations/core.py`, lines 177-181): log an
`EXAMPLE_ADDED` transformation and add the new example to the store. -/
def track_add_example (acc : EngineAcc) (new_example : Example) : EngineAcc :=
  { acc with
    transforms := acc.transforms
      ++ [{ example_ := some (example_hash new_example)
            type := TransformationType.EXAMPLE_ADDED }]
    store := acc.store.add new_example }

/-- `track_remove_example` (lines 183-188): log an `EXAMPLE_REMOVED`
transformation for the original hash. -/
def track_remove_example (acc : EngineAcc) (orig_example_hash : ExampleHashData) : EngineAcc :=
  { acc with
    transforms := acc.transforms
      ++ [{ prev_example := some orig_example_hash
            type := TransformationType.EXAMPLE_REMOVED }] }

/-- `track_change_example` (lines 190-198): log an `EXAMPLE_CHANGED`
transformation and add the new example to the store. -/
def track_change_example (acc : EngineAcc) (orig_example_hash : ExampleHashData)
    (new_example : Example) : EngineAcc :=
  { acc with
    transforms := acc.transforms
      ++ [{ prev_example := some orig_example_hash
            example_ := some (example_hash new_example)
            type := TransformationType.EXAMPLE_CHANGED }]
    store := acc.store.add new_example }

/-- The inner loop over a list result (lines 252-258): every output is
appended to `new_data`; an output whose hash equals the original hash sets
`old_example_present`, every other output is tracked as added. -/
def splitLoop (orig_example_hash : ExampleHashData) (acc : EngineAcc) (present : Bool) :
    List Example → EngineAcc × Bool
  | [] => (acc, present)
  | new_example :: rest =>
      let acc' := { acc with newData := acc.newData ++ [new_example] }
      if example_hash new_example = orig_example_hash then
        splitLoop orig_example_hash acc' true rest
      else
        splitLoop orig_example_hash (track_add_example acc' new_example) present rest

/-- One iteration of the main loop of `Operation.__call__` (lines 243-265),
dispatching on the shape of `self.op`'s result.  `op_iter` yields the hash of
the example before the call together with a deep copy of the example; under
value semantics the copy is the example itself. -/
def processRecord (op : Example → OpRes) (acc : EngineAcc) (e : Example) : EngineAcc :=
  let orig_example_hash := example_hash e
  match op e with
  | OpRes.noneRes => track_remove_example acc orig_example_hash
  | OpRes.multiple res =>
      let inner := splitLoop orig_example_hash acc false res
      if inner.2 then inner.1 else track_remove_example inner.1 orig_example_hash
  | OpRes.single r =>
      let acc' := { acc with newData := acc.newData ++ [r] }
      if example_hash r ≠ orig_example_hash then
        track_change_example acc' orig_example_hash r
      else
        acc'

/-- `Counter([t.type for t in state.transformations])[ty]` (line 269). -/
def countType (ts : List Transformation) (ty : TransformationType) : Nat :=
  (ts.filter (fun t => t.type = ty)).length

/-- `OperationResult` from `recon/types.py`. -/
structure OperationResult where
  data : List Example
  state : OperationState
deriving Repr

/-- `Operation.__call__` (`recon/operations/core.py`, lines 148-277) without
preprocessors and argument binding (see `Operation`).  Follows the source
order: default/copy the initial state, promote `NOT_STARTED` to `IN_PROGRESS`,
set `NEEDS_TOKENIZATION` when token data meets `handles_tokens = False` (a
warning is also emitted, not modelled), run the main loop, tally the counts
and finally set the status to `COMPLETED` unconditionally before freezing. -/
def Operation.call (o : Operation) (initial_state : Option OperationState)
    (data : List Example) (store : ExampleStore) : OperationResult × ExampleStore :=
  let state := initial_state.getD { name := o.name }
  let state :=
    if state.status = OperationStatus.NOT_STARTED then
      { state with status := OperationStatus.IN_PROGRESS }
    else state
  let has_tokens := data.any exampleHasTokens
  let state :=
    if has_tokens && !o.handles_tokens then
      { state with status := OperationStatus.NEEDS_TOKENIZATION }
    else state
  let acc := data.foldl (processRecord o.op) ⟨[], state.transformations, store⟩
  let state :=
    { state with
      transformations := acc.transforms
      examples_added := countType acc.transforms TransformationType.EXAMPLE_ADDED
      examples_removed := countType acc.transforms TransformationType.EXAMPLE_REMOVED
      examples_changed := countType acc.transforms TransformationType.EXAMPLE_CHANGED
      status := OperationStatus.COMPLETED }
  ({ data := acc.newData, state := state }, acc.store)

/-! ## Dataset (`recon/dataset.py`) -/

/-- Python exceptions raised by the modelled code paths: `ValueError` with its
message, and `KeyError` from dict access. -/
inductive PyErr where
  | valueError (msg : String)
  | keyError
deriving DecidableEq, Repr

/-- `Dataset` from `recon/dataset.py`: `_name`, the active `_data` list and
the `_operations` log.  `_example_store` is a shared mutable reference in the
source and is threaded explicitly next to the dataset value. -/
structure Dataset where
  name : String
  data : List Example
  operations : List OperationState
deriving DecidableEq, Repr

/-- `Dataset.commit_hash`: `dataset_hash(self)`. -/
def Dataset.commit_hash (ds : Dataset) : DatasetHashData :=
  dataset_hash ds.name ds.data

/-- `Dataset.apply_` (`recon/dataset.py`, lines 153-189) with the operation
already resolved to an instance: run the engine, unconditionally append the
frozen state to the log, and replace the active list only when
`any((added, removed, changed))` holds, i.e. some count is nonzero. -/
def Dataset.apply_ (ds : Dataset) (store : ExampleStore) (o : Operation)
    (initial_state : Option OperationState) : Dataset × ExampleStore :=
  let res := o.call initial_state ds.data store
  let result := res.1
  let operations' := ds.operations ++ [result.state]
  let dataset_changed :=
    result.state.examples_added ≠ 0 ∨ result.state.examples_removed ≠ 0 ∨
      result.state.examples_changed ≠ 0
  ({ ds with
      operations := operations'
      data := if dataset_changed then result.data else ds.data },
    res.2)

/-- Python set insertion order: `set.add` keeps the element set duplicate-free;
iteration order of small Python sets is unspecified, insertion order is used
here (the final store below does not depend on deletion order). -/
def setInsert (s : List (Option ExampleHashData)) (x : Option ExampleHashData) :
    List (Option ExampleHashData) :=
  if x ∈ s then s else s ++ [x]

/-- `store[t.prev_example]` where the field is optional: a `None` field or an
absent key raises `KeyError` (returned as `none` here). -/
def storeGetOpt (store : ExampleStore) (h : Option ExampleHashData) : Option Example :=
  h.bind store.get

/-- The collection loop of `Dataset.rollback` (`recon/dataset.py`, lines
252-264) over the transformations of the last `n` operations in log order:
`EXAMPLE_ADDED` marks the new hash for removal, `EXAMPLE_CHANGED` marks the new
hash for removal and reinstates `store[t.prev_example]`, `EXAMPLE_REMOVED`
reinstates `store[t.prev_example]`. -/
def rollbackCollect (store : ExampleStore)
    (acc : List (Option ExampleHashData) × List Example) :
    List Transformation → Except PyErr (List (Option ExampleHashData) × List Example)
  | [] => Except.ok acc
  | t :: ts =>
      match t.type with
      | TransformationType.EXAMPLE_ADDED =>
          rollbackCollect store (setInsert acc.1 t.example_, acc.2) ts
      | TransformationType.EXAMPLE_CHANGED =>
          match storeGetOpt store t.prev_example with
          | some e => rollbackCollect store (setInsert acc.1 t.example_, acc.2 ++ [e]) ts
          | none => Except.error PyErr.keyError
      | TransformationType.EXAMPLE_REMOVED =>
          match storeGetOpt store t.prev_example with
          | some e => rollbackCollect store (acc.1, acc.2 ++ [e]) ts
          | none => Except.error PyErr.keyError

/-- The deletion loop of `Dataset.rollback` (lines 271-272):
`del self._example_store._map[e]` for every collected hash; a missing key (or
a `None` entry) raises `KeyError`. -/
def storeDeleteAll (store : ExampleStore) :
    List (Option ExampleHashData) → Except PyErr ExampleStore
  | [] => Except.ok store
  | none :: _ => Except.error PyErr.keyError
  | some h :: rest =>
      if store.contains h then storeDeleteAll (store.erase h) rest
      else Except.error PyErr.keyError

/-- `Dataset.rollback` (`recon/dataset.py`, lines 226-272).  Bounds errors are
raised before any state is touched.  Note two behaviours of the source kept
faithfully: reinstated examples are appended at the end of the filtered active
list (`old_data += examples_to_add`), and the log is truncated with
`self.operations[:-1]`, i.e. by one entry whatever `n` is.  (In the source a
`KeyError` in the deletion loop would fire after `_data`/`_operations` were
already reassigned; the claims never reach that path, and the model reports
the error without the partial state.) -/
def Dataset.rollback (ds : Dataset) (store : ExampleStore) (n : Int) :
    Except PyErr (Dataset × ExampleStore) :=
  if n < 1 then
    Except.error (PyErr.valueError "Cannot rollback dataset: provided n must be 1 or higher.")
  else if n > (ds.operations.length : Int) then
    Except.error (PyErr.valueError
      "Cannot rollback dataset: provided n is larger than the total number of dataset operations.")
  else
    let lastOps := ds.operations.drop (ds.operations.length - n.toNat)
    match rollbackCollect store ([], [])
        (lastOps.flatMap (fun op => op.transformations)) with
    | Except.error e => Except.error e
    | Except.ok p =>
        let examples_to_remove := p.1
        let examples_to_add := p.2
        let old_data :=
          (ds.data.filter (fun e => decide (some (example_hash e) ∉ examples_to_remove)))
            ++ examples_to_add
        let ds' := { ds with data := old_data, operations := ds.operations.dropLast }
        match storeDeleteAll store examples_to_remove with
        | Except.ok store' => Except.ok (ds', store')
        | Except.error e => Except.error e

/-- The `ExternalChange` pseudo-operation appended by `Dataset.from_disk`
(`recon/dataset.py`, lines 333-343).  `Nat` truncated subtraction coincides
with the source's `max(a - b, 0)`. -/
def externalChangePseudoOp (newSize oldSize : Nat) : OperationState :=
  { name := "recon.examples_added_external.v1"
    status := OperationStatus.COMPLETED
    examples_added := newSize - oldSize
    examples_removed := oldSize - newSize
    examples_changed := 0
    transformations := [] }

/-- The reset loop of `Dataset.from_disk` (lines 345-346):
`op._status = OperationStatus.NOT_STARTED` on every logged operation.  On a
pydantic v2 `BaseModel` this object-setattrs an undeclared `_status` attribute
(modelled by `priv_status`) and leaves the `status` field as it was. -/
def statusResetLoop (ops : List OperationState) : List OperationState :=
  ops.map (fun op => { op with priv_status := some OperationStatus.NOT_STARTED })

/-- The commit-hash reconciliation block of `Dataset.from_disk`
(`recon/dataset.py`, lines 331-346), applied to a dataset whose operations and
data were just loaded: when the recomputed commit hash disagrees with the
persisted one, append the pseudo-operation and run the reset loop over the
whole log (which at that point includes the pseudo-operation itself). -/
def Dataset.from_disk_reconcile (ds : Dataset) (state : DatasetOperationsState) : Dataset :=
  if ds.commit_hash ≠ state.commit then
    let ops := ds.operations ++ [externalChangePseudoOp ds.data.length state.size]
    { ds with operations := statusResetLoop ops }
  else ds

/-- The load portion of `Dataset.from_disk` (lines 303-346) when a persisted
state document exists: take over the persisted operations, read the data file,
`add` every loaded example to the store, and reconcile against the persisted
commit.  The trailing re-execution of not-completed registry operations (lines
348-359) needs the process-global operation registry and is outside the model;
no claim depends on it. -/
def Dataset.from_disk_model (name : String) (state : DatasetOperationsState)
    (loadedData : List Example) (store : ExampleStore) : Dataset × ExampleStore :=
  let store' := loadedData.foldl ExampleStore.add store
  let ds : Dataset := { name := name, data := loadedData, operations := state.operations }
  (ds.from_disk_reconcile state, store')

/-! ## Corpus (`recon/corpus.py`) -/

/-- `Corpus` from `recon/corpus.py`: three named datasets and one
`ExampleStore`.  `Corpus.__init__` calls `ds.set_example_store(example_store)`
on every split, so all three datasets alias the single store modelled by the
`example_store` field. -/
structure Corpus where
  name : String
  train : Dataset
  dev : Dataset
  test : Dataset
  example_store : ExampleStore
deriving DecidableEq, Repr

/-- Calling `corpus.train_ds.rollback(n)`: the train dataset is rolled back
and the shared store is mutated in place, so dev and test observe the same
store afterwards. -/
def Corpus.rollback_train (c : Corpus) (n : Int) : Except PyErr Corpus :=
  match c.train.rollback c.example_store n with
  | Except.ok p => Except.ok { c with train := p.1, example_store := p.2 }
  | Except.error e => Except.error e

/-! ## SpacyPreProcessor (`recon/preprocess.py`) -/

/-- Keys of `PreProcessor._cache`: the source stores docs under `doc.text`
(a `str`) but tests membership with `hash(e)` (an `int`).  Both key kinds live
in one Python dict; an `int` never equals a `str`, which the two disjoint
constructors reproduce. -/
inductive CacheKey where
  | textKey (t : String)
  | hashKey (h : ExampleHashData)
deriving DecidableEq, Repr

/-- A spaCy `Doc` as far as the cache logic observes it: `nlp.pipe` yields one
doc per input text with `doc.text` equal to that text. -/
structure SpacyDoc where
  text : String
deriving DecidableEq, Repr

/-- Dict membership on the preprocessor cache. -/
def cacheHasKey (c : List (CacheKey × SpacyDoc)) (k : CacheKey) : Bool :=
  c.any (fun p => p.1 = k)

/-- Dict lookup on the preprocessor cache (`KeyError` as `none`). -/
def cacheGet (c : List (CacheKey × SpacyDoc)) (k : CacheKey) : Option SpacyDoc :=
  (c.find? (fun p => p.1 = k)).map (fun p => p.2)

/-- Dict assignment `self._cache[doc.text] = doc`. -/
def cacheSet (c : List (CacheKey × SpacyDoc)) (k : CacheKey) (d : SpacyDoc) :
    List (CacheKey × SpacyDoc) :=
  if cacheHasKey c k then c.map (fun p => if p.1 = k then (k, d) else p) else c ++ [(k, d)]

/-- `list(self.nlp.pipe(texts))`: one doc per text, in order. -/
def nlpPipe (texts : List String) : List SpacyDoc :=
  texts.map (fun t => { text := t })

/-- `SpacyPreProcessor` (`recon/preprocess.py`, lines 47-92): the instance
holds `_cache`, initialised once in `PreProcessor.__init__` and kept for the
lifetime of the (module-level, process-wide) instance — it is not cleared
between batch calls. -/
structure SpacyPreProcessor where
  cache : List (CacheKey × SpacyDoc)
deriving DecidableEq, Repr

/-- `unseen_texts` generator of `SpacyPreProcessor.__call__` (line 83): the
texts of the examples whose `hash(e)` is not a cache key. -/
def SpacyPreProcessor.unseen_texts (p : SpacyPreProcessor) (data : List Example) :
    List String :=
  (data.filter
      (fun e => !(cacheHasKey p.cache (CacheKey.hashKey (example_hash e))))).map
    (fun e => e.text)

/-- `seen_texts` generator (line 84): `(i, e.text)` for the enumerated
examples whose `hash(e)` is a cache key. -/
def SpacyPreProcessor.seen_texts (p : SpacyPreProcessor) (data : List Example) :
    List (Nat × String) :=
  (data.enum.filter
      (fun q => cacheHasKey p.cache (CacheKey.hashKey (example_hash q.2)))).map
    (fun q => (q.1, q.2.text))

/-- `SpacyPreProcessor.__call__` (`recon/preprocess.py`, lines 82-92): pipe the
unseen texts, store each doc under `self._cache[doc.text]`, then insert cached
docs for the seen indices (`self._cache[st]`, `KeyError` as `none`).  Returns
the docs and the instance with its updated persistent cache. -/
def SpacyPreProcessor.call (p : SpacyPreProcessor) (data : List Example) :
    Option (List SpacyDoc × SpacyPreProcessor) :=
  let docs := nlpPipe (p.unseen_texts data)
  let cache' := docs.foldl (fun c d => cacheSet c (CacheKey.textKey d.text) d) p.cache
  match (p.seen_texts data).foldlM
      (fun ds q => (cacheGet cache' (CacheKey.textKey q.2)).map
        (fun d => ds.insertIdx q.1 d)) docs with
  | some ds => some (ds, { cache := cache' })
  | none => none

/-! ## Statement helpers and concrete fixtures -/

/-- The transformation value `track_add_example` logs for an output. -/
def addedOf (o : Example) : Transformation :=
  { example_ := some (example_hash o), type := TransformationType.EXAMPLE_ADDED }

/-- The transformation value `track_remove_example` logs for an input hash. -/
def removedOf (h : ExampleHashData) : Transformation :=
  { prev_example := some h, type := TransformationType.EXAMPLE_REMOVED }

/-- The transformation value `track_change_example` logs. -/
def changedOf (h : ExampleHashData) (o : Example) : Transformation :=
  { prev_example := some h
    example_ := some (example_hash o)
    type := TransformationType.EXAMPLE_CHANGED }

/-- Fixture: a record with text "a" and no spans. -/
def exA : Example := { text := "a", spans := [] }

/-- Fixture: a record with text "b" and no spans. -/
def exB : Example := { text := "b", spans := [] }

/-- Fixture: the record `exA` after a pure edit (text "a2"). -/
def exA2 : Example := { text := "a2", spans := [] }

/-- Fixture: a registered operation whose transform is a pure function of its
input record: it rewrites `exA` to `exA2` and echoes everything else. -/
def opChangeA : Operation :=
  { name := "change_a"
    handles_tokens := true
    op := fun e => if e = exA then OpRes.single exA2 else OpRes.single e }

/-- Fixture: the two-record dataset `[exA, exB]` before `apply_`. -/
def c1Init : Dataset := { name := "ds", data := [exA, exB], operations := [] }

/-- Fixture: `Dataset.__init__` builds the store from the initial data. -/
def c1Store : ExampleStore := ExampleStore.ofList [exA, exB]

/-- Fixture: the dataset/store pair after `apply_(opChangeA)`. -/
def c1Applied : Dataset × ExampleStore := c1Init.apply_ c1Store opChangeA none

/-- Fixture: the result of `rollback(1)` right after the apply. -/
def c1Result : Except PyErr (Dataset × ExampleStore) :=
  c1Applied.1.rollback c1Applied.2 1

/-- Fixture: a completed operation state that logged `exB` as added. -/
def opStateAdd1 : OperationState :=
  { name := "op1"
    status := OperationStatus.COMPLETED
    examples_added := 1
    transformations := [addedOf exB] }

/-- Fixture: a completed operation state that logged `exA2` as added. -/
def opStateAdd2 : OperationState :=
  { name := "op2"
    status := OperationStatus.COMPLETED
    examples_added := 1
    transformations := [addedOf exA2] }

/-- Fixture: a dataset with two logged operations. -/
def c2Ds : Dataset :=
  { name := "ds", data := [exA, exB, exA2], operations := [opStateAdd1, opStateAdd2] }

/-- Fixture: store holding every version referenced by `c2Ds`. -/
def c2Store : ExampleStore := ExampleStore.ofList [exA, exB, exA2]

/-- Fixture: `c2Ds.rollback(2)`. -/
def c2Result : Except PyErr (Dataset × ExampleStore) := c2Ds.rollback c2Store 2

/-- Fixture: a store-file line whose stored hash (the hash of `exB`) does not
match the hash recomputed over its record payload (`exA`). -/
def corruptLine : StoreLine := { example_hash := example_hash exB, example_ := exA }

/-- Fixture: a previously-logged operation persisted as `COMPLETED`. -/
def c4PrevOp : OperationState := { name := "prev_op", status := OperationStatus.COMPLETED }

/-- Fixture: persisted dataset state whose commit was taken over `[exA]`
(size 1) while the freshly loaded data will be `[exA, exB]` (size 2). -/
def c4State : DatasetOperationsState :=
  { name := "ds", commit := dataset_hash "ds" [exA], size := 1, operations := [c4PrevOp] }

/-- Fixture: `Dataset.from_disk` of the externally grown data. -/
def c4Loaded : Dataset × ExampleStore :=
  Dataset.from_disk_model "ds" c4State [exA, exB] (ExampleStore.mk [])

/-- Fixture: a split transform returning two fresh outputs for any input. -/
def c5op : Example → OpRes := fun _ => OpRes.multiple [exA2, exB]

/-- Fixture: an echo operation (`Replace(record)` unchanged). -/
def c6op : Operation :=
  { name := "echo", handles_tokens := true, op := fun e => OpRes.single e }

/-- Fixture: record with one token. -/
def c7TokenA : Example :=
  { text := "t", spans := [], tokens := some [{ text := "t", start := 0, end_ := 1, id := 0 }] }

/-- Fixture: `c7TokenA` with the token's text field changed. -/
def c7TokenB : Example :=
  { text := "t", spans := [], tokens := some [{ text := "u", start := 0, end_ := 1, id := 0 }] }

/-- Fixture: a span without a knowledge-base id. -/
def c7SpanA : Span := { text := "t", start := 0, end_ := 1, label := "L" }

/-- Fixture: `c7SpanA` with the `kb_id` field changed. -/
def c7SpanB : Span := { text := "t", start := 0, end_ := 1, label := "L", kb_id := some "Q1" }

/-- Fixture: record with a meta entry. -/
def c7MetaA : Example := { text := "m", spans := [], meta := [("source", "x")] }

/-- Fixture: `c7MetaA` with different meta. -/
def c7MetaB : Example := { text := "m", spans := [], meta := [] }

/-- Fixture: an active record carrying token data. -/
def c8Tokenized : Example :=
  { text := "t", spans := [], tokens := some [{ text := "t", start := 0, end_ := 1, id := 0 }] }

/-- Fixture: an echoing operation that declares it does not handle tokenized
input. -/
def c8op : Operation :=
  { name := "no_tokens_op", handles_tokens := false, op := fun e => OpRes.single e }

/-- Fixture: the preprocessor instance as registered at import time, with its
empty initial cache. -/
def c9p0 : SpacyPreProcessor := { cache := [] }

/-- Fixture: a train dataset whose single logged operation changed `exA` into
`exA2`. -/
def c10Train : Dataset :=
  { name := "train"
    data := [exA2]
    operations :=
      [{ name := "change_a"
         status := OperationStatus.COMPLETED
         examples_changed := 1
         transformations := [changedOf (example_hash exA) exA2] }] }

/-- Fixture: a corpus whose three splits share one store; dev's active data
also references the `exA2` version living in the shared store. -/
def c10Corpus : Corpus :=
  { name := "corpus"
    train := c10Train
    dev := { name := "dev", data := [exA2], operations := [] }
    test := { name := "test", data := [], operations := [] }
    example_store := ExampleStore.ofList [exA, exA2] }

/-- Fixture: the corpus after `corpus.train_ds.rollback(1)` (computed value;
the witness proves it is the `Except.ok` payload). -/
def c10After : Corpus := ((c10Corpus.rollback_train 1).toOption).getD c10Corpus

/-! ## Store lemmas -/

/-- Adding an example makes its recomputed hash a key. -/
theorem ExampleStore.contains_add_self (s : ExampleStore) (e : Example) :
    (s.add e).contains (example_hash e) = true := by
  unfold ExampleStore.add
  by_cases h : s.contains (example_hash e) = true
  · simp [h]
  · simp only [h]
    simp [ExampleStore.contains, List.any_append]

/-- `add` never removes keys. -/
theorem ExampleStore.contains_add_of_contains (s : ExampleStore) (e : Example)
    (h : ExampleHashData) (hc : s.contains h = true) : (s.add e).contains h = true := by
  unfold ExampleStore.add
  by_cases hm : s.contains (example_hash e) = true
  · simpa [hm] using hc
  · simp only [hm]
    simp only [ExampleStore.contains, List.any_append] at hc ⊢
    simp [hc]

/-- `from_disk` never removes keys. -/
theorem ExampleStore.contains_from_disk_of_contains (lines : List StoreLine) :
    ∀ (s : ExampleStore) (h : ExampleHashData), s.contains h = true →
      (s.from_disk lines).contains h = true := by
  induction lines with
  | nil => intro s h hc; simpa [ExampleStore.from_disk] using hc
  | cons l ls ih =>
      intro s h hc
      have : (s.from_disk (l :: ls)) = ((s.add l.example_).from_disk ls) := rfl
      rw [this]
      exact ih _ _ (s.contains_add_of_contains l.example_ h hc)

/-- A key absent from the map stays absent after `erase` of any key. -/
theorem ExampleStore.contains_erase_of_not_contains (s : ExampleStore)
    (h h' : ExampleHashData) (hc : s.contains h = false) :
    (s.erase h').contains h = false := by
  simp only [ExampleStore.contains, ExampleStore.erase, List.any_eq_false,
    decide_eq_true_eq, List.mem_filter] at hc ⊢
  intro p hp
  exact hc p hp.1

/-- `erase` removes its key. -/
theorem ExampleStore.contains_erase_self (s : ExampleStore) (h : ExampleHashData) :
    (s.erase h).contains h = false := by
  simp only [ExampleStore.contains, ExampleStore.erase, List.any_eq_false,
    decide_eq_true_eq, List.mem_filter, bne_iff_ne, ne_eq]
  intro p hp
  exact fun hq => hp.2 (by simp [hq])

/-- A hash that is not a key has no value. -/
theorem ExampleStore.get_eq_none_of_not_contains (s : ExampleStore) (h : ExampleHashData)
    (hc : s.contains h = false) : s.get h = none := by
  simp only [ExampleStore.contains, List.any_eq_false, decide_eq_true_eq] at hc
  simp only [ExampleStore.get, Option.map_eq_none', List.find?_eq_none, decide_eq_true_eq]
  exact hc

/-! ## Claim C1 -/

/-- C1: the claim states that for a pure operation, `apply_` followed by
`rollback(1)` restores the commit hash and the active list's size and order.
On the code it does not: `rollback` appends reinstated previous versions at
the end of the filtered active list, so a record changed at a non-final
position comes back at the tail.  Concretely, applying an operation that
rewrites `exA` of `[exA, exB]` and rolling it back yields the active list
`[exB, exA]`: the size is restored but the order is not, and therefore the
commit hash (a hash over the ordered record hashes) differs from `h0`. -/
theorem C1_rollback_does_not_restore_order_or_commit :
    c1Result =
      Except.ok
        ({ name := "ds", data := [exB, exA], operations := [] },
          ExampleStore.ofList [exA, exB])
    ∧ (c1Result.map (fun r => r.1.data.length)) = Except.ok c1Init.data.length
    ∧ (c1Result.map (fun r => decide (r.1.data = c1Init.data))) = Except.ok false
    ∧ (c1Result.map (fun r => decide (r.1.commit_hash = c1Init.commit_hash)))
        = Except.ok false :=
  ⟨rfl, rfl, rfl, rfl⟩

/-! ## Claim C2 -/

/-- C2: the claim states that `rollback(n)` applies the structural inverse of
the last `n` operations' transformations from the store and truncates the
operation log by exactly `n`.  The inverse part holds on the code, but the log
is truncated with `self.operations[:-1]` — by exactly one entry whatever `n`
is.  Concretely, rolling back `n = 2` on a dataset with two logged operations
(each having added one record) removes both added records from the active list
(the correct inverse) yet leaves one operation in the log instead of zero. -/
theorem C2_rollback_truncates_log_by_one :
    c2Result =
      Except.ok
        ({ name := "ds", data := [exA], operations := [opStateAdd1] },
          ExampleStore.ofList [exA])
    ∧ (c2Result.map (fun r => r.1.operations.length)) = Except.ok 1
    ∧ c2Ds.operations.length = 2 :=
  ⟨rfl, rfl, rfl⟩

/-! ## Claim C3 -/

/-- C3 counterexample: loading a one-line store file whose stored hash (the
hash of `exB`) does not match the hash recomputed over the line's payload
(`exA`) does not fail and does not leave the store empty: the payload is
loaded under its freshly computed hash.  The claimed `CorruptionError` path
does not exist — `from_disk` is a total function of the payloads. -/
theorem C3_counterexample_corrupt_line_loads :
    corruptLine.example_hash ≠ example_hash corruptLine.example_
    ∧ (ExampleStore.mk []).from_disk [corruptLine]
        = ExampleStore.mk [(example_hash exA, exA)]
    ∧ ((ExampleStore.mk []).from_disk [corruptLine]).size = 1 :=
  ⟨by decide, rfl, rfl⟩

/-- C3 (amended): `ExampleStore.from_disk` reconstructs each record from its
line's payload and `add`s it under a freshly recomputed hash; the stored hash
field is ignored entirely (the load result is invariant under rewriting every
line's stored hash), no integrity comparison is performed and no error is
raised; every loaded payload ends up retrievable under its recomputed hash. -/
theorem C3_from_disk_ignores_stored_hash :
    (∀ (s : ExampleStore) (lines : List StoreLine) (f : StoreLine → ExampleHashData),
        ExampleStore.from_disk s
            (lines.map (fun l => { example_hash := f l, example_ := l.example_ }))
          = ExampleStore.from_disk s lines)
    ∧ (∀ (s : ExampleStore) (lines : List StoreLine) (l : StoreLine), l ∈ lines →
        (s.from_disk lines).contains (example_hash l.example_) = true) := by
  constructor
  · intro s lines f
    simp [ExampleStore.from_disk, List.foldl_map]
  · intro s lines
    induction lines generalizing s with
    | nil => intro l hl; cases hl
    | cons x xs ih =>
        intro l hl
        have hstep : (s.from_disk (x :: xs)) = ((s.add x.example_).from_disk xs) := rfl
        rw [hstep]
        rcases List.mem_cons.mp hl with hx | hxs
        · subst hx
          exact ExampleStore.contains_from_disk_of_contains xs _ _
            (s.contains_add_self l.example_)
        · exact ih _ l hxs

/-- C3 witness: the amended theorem applied to the concrete corrupted line. -/
theorem C3_from_disk_ignores_stored_hash_witness :
    ((ExampleStore.mk []).from_disk [corruptLine]).contains
        (example_hash corruptLine.example_) = true :=
  C3_from_disk_ignores_stored_hash.2 (ExampleStore.mk []) [corruptLine] corruptLine
    (List.mem_singleton.mpr rfl)

/-! ## Claim C4 -/

/-- C4: on `from_disk` with a commit-hash mismatch the code does append
exactly one pseudo-operation with `added = max(newSize-oldSize, 0)`,
`removed = max(oldSize-newSize, 0)` and no transformations — but the claimed
status reset does not happen: `op._status = OperationStatus.NOT_STARTED` on a
pydantic v2 model writes a stray `_status` instance attribute (modelled by
`priv_status`) and every operation's `status` field keeps its old value.
Concretely, loading `[exA, exB]` against a persisted commit over `[exA]`
(size 1) with one `COMPLETED` logged operation yields a log whose statuses
are still `[COMPLETED, COMPLETED]`. -/
theorem C4_from_disk_reset_leaves_status_completed :
    c4Loaded.1.operations
      = [ { c4PrevOp with priv_status := some OperationStatus.NOT_STARTED },
          { externalChangePseudoOp 2 1 with priv_status := some OperationStatus.NOT_STARTED } ]
    ∧ (externalChangePseudoOp 2 1).examples_added = 1
    ∧ (externalChangePseudoOp 2 1).examples_removed = 0
    ∧ (externalChangePseudoOp 2 1).examples_changed = 0
    ∧ (externalChangePseudoOp 2 1).transformations = []
    ∧ (c4Loaded.1.operations.map (fun op => op.status))
        = [OperationStatus.COMPLETED, OperationStatus.COMPLETED] :=
  ⟨rfl, rfl, rfl, rfl, rfl, rfl⟩

/-! ## Claim C8 -/

/-- C8: the claim states that when token data meets an operation with
`handles_tokens = False` the logged `OperationState` has status
`NEEDS_TOKENIZATION` rather than `COMPLETED`.  The engine does set that status
mid-run (line 216) and the run succeeds with a warning, but line 273 then
assigns `state.status = OperationStatus.COMPLETED` unconditionally before the
state is frozen, so the returned and logged status is `COMPLETED` — the
`NEEDS_TOKENIZATION` value is never observable. -/
theorem C8_needs_tokenization_overwritten :
    exampleHasTokens c8Tokenized = true
    ∧ c8op.handles_tokens = false
    ∧ ((c8op.call none [c8Tokenized] (ExampleStore.mk [])).1).state.status
        = OperationStatus.COMPLETED
    ∧ OperationStatus.COMPLETED ≠ OperationStatus.NEEDS_TOKENIZATION :=
  ⟨rfl, rfl, rfl, by decide⟩

/-! ## Engine lemmas -/

/-- The list-result loop appends every output to `new_data`, in order. -/
theorem splitLoop_newData (h : ExampleHashData) (outs : List Example) :
    ∀ (acc : EngineAcc) (p : Bool),
      ((splitLoop h acc p outs).1).newData = acc.newData ++ outs := by
  induction outs with
  | nil => intro acc p; simp [splitLoop]
  | cons o rest ih =>
      intro acc p
      by_cases hc : example_hash o = h
      · simp [splitLoop, hc, ih]
      · simp [splitLoop, hc, track_add_example, ih]

/-- The list-result loop logs exactly the non-matching outputs as added, in
order. -/
theorem splitLoop_transforms (h : ExampleHashData) (outs : List Example) :
    ∀ (acc : EngineAcc) (p : Bool),
      ((splitLoop h acc p outs).1).transforms
        = acc.transforms
          ++ (outs.filter (fun x => decide (example_hash x ≠ h))).map addedOf := by
  induction outs with
  | nil => intro acc p; simp [splitLoop]
  | cons o rest ih =>
      intro acc p
      by_cases hc : example_hash o = h
      · simp [splitLoop, hc, ih]
      · simp [splitLoop, hc, track_add_example, ih, addedOf]

/-- The `old_example_present` flag is the disjunction of the hash matches. -/
theorem splitLoop_presentFlag (h : ExampleHashData) (outs : List Example) :
    ∀ (acc : EngineAcc) (p : Bool),
      (splitLoop h acc p outs).2
        = (p || outs.any (fun x => decide (example_hash x = h))) := by
  induction outs with
  | nil => intro acc p; simp [splitLoop]
  | cons o rest ih =>
      intro acc p
      by_cases hc : example_hash o = h
      · simp [splitLoop, hc, ih]
      · simp [splitLoop, hc, track_add_example, ih]

/-- For a list result, `new_data` grows by exactly the outputs whether or not
the original was present. -/
theorem processRecord_multiple_newData (op : Example → OpRes) (acc : EngineAcc)
    (e : Example) (outs : List Example) (hop : op e = OpRes.multiple outs) :
    (processRecord op acc e).newData = acc.newData ++ outs := by
  unfold processRecord
  rw [hop]
  by_cases hp : (splitLoop (example_hash e) acc false outs).2 = true
  · simp [hp, splitLoop_newData]
  · simp only [Bool.not_eq_true] at hp
    simp [hp, track_remove_example, splitLoop_newData]

/-- Engine loop over a uniformly list-valued transform: the new active list is
the in-order concatenation of the per-record outputs. -/
theorem foldl_processRecord_multiple (op : Example → OpRes) (g : Example → List Example) :
    ∀ (data : List Example),
      (∀ e ∈ data, op e = OpRes.multiple (g e)) →
      ∀ (acc : EngineAcc),
        (data.foldl (processRecord op) acc).newData = acc.newData ++ data.flatMap g := by
  intro data
  induction data with
  | nil => intro _ acc; simp
  | cons e rest ih =>
      intro hall acc
      rw [List.foldl_cons]
      rw [ih (fun x hx => hall x (List.mem_cons_of_mem _ hx))]
      rw [processRecord_multiple_newData op acc e (g e) (hall e (List.mem_cons_self e rest))]
      simp

/-- Engine loop over an echo transform: no transformation is ever logged. -/
theorem foldl_processRecord_echo (op : Example → OpRes) :
    ∀ (data : List Example),
      (∀ e ∈ data, ∃ r, op e = OpRes.single r ∧ example_hash r = example_hash e) →
      ∀ (acc : EngineAcc),
        (data.foldl (processRecord op) acc).transforms = acc.transforms := by
  intro data
  induction data with
  | nil => intro _ acc; rfl
  | cons e rest ih =>
      intro hall acc
      obtain ⟨r, hop, hh⟩ := hall e (List.mem_cons_self e rest)
      have hstep : processRecord op acc e = { acc with newData := acc.newData ++ [r] } := by
        unfold processRecord
        rw [hop]
        simp [hh]
      rw [List.foldl_cons, hstep]
      exact ih (fun x hx => hall x (List.mem_cons_of_mem _ hx)) _

/-! ## Claim C5 -/

/-- C5: split semantics of the engine, as claimed.  (a) If exactly one output
hashes like the input, the outputs are all appended to the new active list and
exactly the non-matching ones are logged `EXAMPLE_ADDED` — the matching one is
kept without a transformation and no removal is logged.  (b) If no output
matches, every output is logged `EXAMPLE_ADDED` and one `EXAMPLE_REMOVED` is
logged for the input.  (c) Over a whole run, the new active list is the
concatenation, in original record order, of each input's outputs, so kept and
added outputs appear at the input's original position. -/
theorem C5_split_outcome_semantics :
    (∀ (op : Example → OpRes) (e : Example) (outs : List Example) (acc : EngineAcc),
        op e = OpRes.multiple outs →
        (outs.countP (fun x => decide (example_hash x = example_hash e))) = 1 →
        (processRecord op acc e).newData = acc.newData ++ outs
        ∧ (processRecord op acc e).transforms
            = acc.transforms
              ++ (outs.filter (fun x => decide (example_hash x ≠ example_hash e))).map addedOf)
    ∧ (∀ (op : Example → OpRes) (e : Example) (outs : List Example) (acc : EngineAcc),
        op e = OpRes.multiple outs →
        (∀ x ∈ outs, example_hash x ≠ example_hash e) →
        (processRecord op acc e).newData = acc.newData ++ outs
        ∧ (processRecord op acc e).transforms
            = acc.transforms ++ outs.map addedOf ++ [removedOf (example_hash e)])
    ∧ (∀ (o : Operation) (g : Example → List Example) (ist : Option OperationState)
          (data : List Example) (store : ExampleStore),
        (∀ e ∈ data, o.op e = OpRes.multiple (g e)) →
        ((o.call ist data store).1).data = data.flatMap g) := by
  refine ⟨?_, ?_, ?_⟩
  · intro op e outs acc hop hcount
    have hpos : 0 < outs.countP (fun x => decide (example_hash x = example_hash e)) := by
      omega
    have hany : outs.any (fun x => decide (example_hash x = example_hash e)) = true := by
      rw [List.any_eq_true]
      obtain ⟨x, hx, hpx⟩ := List.countP_pos_iff.mp hpos
      exact ⟨x, hx, hpx⟩
    have hflag := splitLoop_presentFlag (example_hash e) outs acc false
    rw [Bool.false_or, hany] at hflag
    constructor
    · unfold processRecord
      rw [hop]
      simp [hflag, splitLoop_newData]
    · unfold processRecord
      rw [hop]
      simp [hflag, splitLoop_transforms]
  · intro op e outs acc hop hnone
    have hany : outs.any (fun x => decide (example_hash x = example_hash e)) = false := by
      rw [List.any_eq_false]
      intro x hx
      simpa using hnone x hx
    have hflag := splitLoop_presentFlag (example_hash e) outs acc false
    rw [Bool.false_or, hany] at hflag
    have hfilter :
        outs.filter (fun x => !decide (example_hash x = example_hash e)) = outs := by
      rw [List.filter_eq_self]
      intro x hx
      simpa using hnone x hx
    constructor
    · unfold processRecord
      rw [hop]
      simp [hflag, track_remove_example, splitLoop_newData]
    · unfold processRecord
      rw [hop]
      simp [hflag, track_remove_example, splitLoop_transforms, hfilter, removedOf]
  · intro o g ist data store hall
    show (Operation.call o ist data store).1.data = data.flatMap g
    unfold Operation.call
    simp only
    rw [foldl_processRecord_multiple o.op g data hall]
    simp

/-- C5 witness: the no-match case at a concrete input — the transform returns
`[exA2, exB]` for `exA`, neither matching, giving two additions, one removal
and both outputs in the new active list. -/
theorem C5_split_outcome_semantics_witness :
    (processRecord c5op (EngineAcc.mk [] [] (ExampleStore.mk [])) exA).newData = [exA2, exB]
    ∧ (processRecord c5op (EngineAcc.mk [] [] (ExampleStore.mk [])) exA).transforms
        = [addedOf exA2, addedOf exB, removedOf (example_hash exA)] := by
  have h := C5_split_outcome_semantics.2.1 c5op exA [exA2, exB]
    (EngineAcc.mk [] [] (ExampleStore.mk [])) rfl (by decide)
  simpa using h

/-- The frozen state's transformation list is the engine loop's output, seeded
with the initial state's transformations (the status bookkeeping between does
not touch them). -/
theorem Operation.call_transformations (o : Operation) (ist : Option OperationState)
    (data : List Example) (store : ExampleStore) :
    ((o.call ist data store).1).state.transformations
      = (data.foldl (processRecord o.op)
          ⟨[], (ist.getD { name := o.name }).transformations, store⟩).transforms := by
  unfold Operation.call
  simp only [apply_ite (fun st : OperationState => st.transformations), ite_self]

/-- The frozen counts are the tallies over the frozen transformations. -/
theorem Operation.call_counts (o : Operation) (ist : Option OperationState)
    (data : List Example) (store : ExampleStore) :
    ((o.call ist data store).1).state.examples_added
        = countType ((o.call ist data store).1).state.transformations
            TransformationType.EXAMPLE_ADDED
    ∧ ((o.call ist data store).1).state.examples_removed
        = countType ((o.call ist data store).1).state.transformations
            TransformationType.EXAMPLE_REMOVED
    ∧ ((o.call ist data store).1).state.examples_changed
        = countType ((o.call ist data store).1).state.transformations
            TransformationType.EXAMPLE_CHANGED :=
  ⟨rfl, rfl, rfl⟩

/-! ## Claim C6 -/

/-- C6: an echo operation (every output is a single record whose hash equals
its input's hash) produces a state with `added = removed = changed = 0`,
`apply_` leaves the active list and the commit hash unchanged while still
appending exactly one frozen `OperationState` to the log; and in general
`apply_` replaces the active list only when one of the three counts is
nonzero. -/
theorem C6_echo_operation_is_noop :
    (∀ (ds : Dataset) (store : ExampleStore) (o : Operation),
        (∀ e ∈ ds.data, ∃ r, o.op e = OpRes.single r ∧ example_hash r = example_hash e) →
        ((o.call none ds.data store).1).state.examples_added = 0
        ∧ ((o.call none ds.data store).1).state.examples_removed = 0
        ∧ ((o.call none ds.data store).1).state.examples_changed = 0
        ∧ (ds.apply_ store o none).1.data = ds.data
        ∧ (ds.apply_ store o none).1.commit_hash = ds.commit_hash
        ∧ (ds.apply_ store o none).1.operations
            = ds.operations ++ [((o.call none ds.data store).1).state])
    ∧ (∀ (ds : Dataset) (store : ExampleStore) (o : Operation)
          (ist : Option OperationState),
        ((o.call ist ds.data store).1).state.examples_added = 0 →
        ((o.call ist ds.data store).1).state.examples_removed = 0 →
        ((o.call ist ds.data store).1).state.examples_changed = 0 →
        (ds.apply_ store o ist).1.data = ds.data) := by
  constructor
  · intro ds store o hecho
    have htr : ((o.call none ds.data store).1).state.transformations = [] := by
      rw [Operation.call_transformations]
      rw [foldl_processRecord_echo o.op ds.data hecho]
      rfl
    have hadded : ((o.call none ds.data store).1).state.examples_added = 0 := by
      rw [(Operation.call_counts o none ds.data store).1, htr]
      rfl
    have hremoved : ((o.call none ds.data store).1).state.examples_removed = 0 := by
      rw [(Operation.call_counts o none ds.data store).2.1, htr]
      rfl
    have hchanged : ((o.call none ds.data store).1).state.examples_changed = 0 := by
      rw [(Operation.call_counts o none ds.data store).2.2, htr]
      rfl
    have hdata : (ds.apply_ store o none).1.data = ds.data := by
      unfold Dataset.apply_
      simp [hadded, hremoved, hchanged]
    refine ⟨hadded, hremoved, hchanged, hdata, ?_, rfl⟩
    show dataset_hash (ds.apply_ store o none).1.name (ds.apply_ store o none).1.data
        = dataset_hash ds.name ds.data
    rw [hdata]
    rfl
  · intro ds store o ist h1 h2 h3
    unfold Dataset.apply_
    simp [h1, h2, h3]

/-- C6 witness: the concrete echo operation on the one-record dataset
`[exA]`. -/
theorem C6_echo_operation_is_noop_witness :
    ((c6op.call none [exA] (ExampleStore.mk [])).1).state.examples_added = 0
    ∧ ((c6op.call none [exA] (ExampleStore.mk [])).1).state.examples_removed = 0
    ∧ ((c6op.call none [exA] (ExampleStore.mk [])).1).state.examples_changed = 0
    ∧ ((Dataset.mk "ds" [exA] []).apply_ (ExampleStore.mk []) c6op none).1.data = [exA]
    ∧ ((Dataset.mk "ds" [exA] []).apply_ (ExampleStore.mk []) c6op none).1.operations
        = [((c6op.call none [exA] (ExampleStore.mk [])).1).state] := by
  have h := C6_echo_operation_is_noop.1 (Dataset.mk "ds" [exA] []) (ExampleStore.mk [])
    c6op (fun e _ => ⟨e, rfl, rfl⟩)
  exact ⟨h.1, h.2.1, h.2.2.1, h.2.2.2.1, by simpa using h.2.2.2.2.2⟩

/-! ## Claim C7 -/

/-- C7 counterexample: the record content hash does not change under every
field change.  Two records that differ only in a token's text field hash
equal (`example_hash` never reads `tokens`; a separate, unused-here
`tokenized_example_hash` would), and two spans that differ only in `kb_id`
have equal span hashes, so the records containing them hash equal as well. -/
theorem C7_counterexample_token_and_kb_id_not_hashed :
    c7TokenA ≠ c7TokenB
    ∧ c7TokenA.tokens ≠ c7TokenB.tokens
    ∧ example_hash c7TokenA = example_hash c7TokenB
    ∧ c7SpanA ≠ c7SpanB
    ∧ span_hash c7SpanA = span_hash c7SpanB
    ∧ example_hash { text := "t", spans := [c7SpanA] }
        = example_hash { text := "t", spans := [c7SpanB] } := by
  refine ⟨by decide, by decide, rfl, by decide, rfl, rfl⟩

/-- C7 (amended): the record content hash is pure and deterministic, but it is
computed from the record's text and spans only — two records rebuilt
independently with equal text and equal spans always hash equal, and the hash
never changes under changes to token data, meta, a span's `kb_id`/`source`,
or switching a span's `token_start`/`token_end` between `None` and `0` (all
collapsed by Python truthiness).  So "changing any span, token, or text field
changes the hash" fails for those fields; for the fields that are hashed, a
change alters the digested byte content and changes the digest only with
overwhelming probability, not with certainty (the unseparated serialization
of `_hash` even collides deterministically for some distinct span tuples), so
no injectivity is claimed. -/
theorem C7_hash_pure_and_field_limited :
    (∀ e1 e2 : Example, e1.text = e2.text → e1.spans = e2.spans →
        example_hash e1 = example_hash e2)
    ∧ (∀ (e : Example) (tks : Option (List Token)) (m : List (String × String)),
        example_hash { e with tokens := tks, meta := m } = example_hash e)
    ∧ (∀ (s : Span) (kb src : Option String),
        span_hash { s with kb_id := kb, source := src } = span_hash s)
    ∧ (∀ s : Span,
        span_hash { s with token_start := some 0, token_end := some 0 }
          = span_hash { s with token_start := none, token_end := none }) := by
  refine ⟨?_, ?_, ?_, ?_⟩
  · intro e1 e2 ht hs
    simp [example_hash, ht, hs]
  · intro e tks m
    simp [example_hash]
  · intro s kb src
    simp [span_hash]
  · intro s
    simp [span_hash]

/-- C7 witness: determinism applied to two independently built records with
identical text and spans but different meta. -/
theorem C7_hash_pure_and_field_limited_witness :
    example_hash c7MetaA = example_hash c7MetaB :=
  C7_hash_pure_and_field_limited.1 c7MetaA c7MetaB rfl rfl

/-! ## Cache lemmas -/

/-- In a cache whose keys are all text keys, the hash-keyed membership test of
`SpacyPreProcessor.__call__` never hits: an `int` example hash never equals a
`str` text key. -/
theorem cacheHasKey_hashKey_eq_false (c : List (CacheKey × SpacyDoc))
    (htk : ∀ q ∈ c, ∃ t, q.1 = CacheKey.textKey t) (h : ExampleHashData) :
    cacheHasKey c (CacheKey.hashKey h) = false := by
  rw [cacheHasKey, List.any_eq_false]
  intro q hq
  obtain ⟨t, ht⟩ := htk q hq
  simp [ht]

/-- Under the text-keys-only invariant, every example is "unseen". -/
theorem unseen_texts_of_textKeys (p : SpacyPreProcessor) (data : List Example)
    (htk : ∀ q ∈ p.cache, ∃ t, q.1 = CacheKey.textKey t) :
    p.unseen_texts data = data.map (fun e => e.text) := by
  unfold SpacyPreProcessor.unseen_texts
  rw [List.filter_eq_self.mpr]
  intro e _
  rw [cacheHasKey_hashKey_eq_false p.cache htk]
  rfl

/-- Under the text-keys-only invariant, no example is "seen". -/
theorem seen_texts_of_textKeys (p : SpacyPreProcessor) (data : List Example)
    (htk : ∀ q ∈ p.cache, ∃ t, q.1 = CacheKey.textKey t) :
    p.seen_texts data = [] := by
  unfold SpacyPreProcessor.seen_texts
  rw [List.map_eq_nil_iff, List.filter_eq_nil_iff]
  intro q _
  rw [cacheHasKey_hashKey_eq_false p.cache htk]
  simp

/-- `cacheSet` with a text key preserves the text-keys-only invariant. -/
theorem cacheSet_textKeys (c : List (CacheKey × SpacyDoc)) (t : String) (d : SpacyDoc)
    (htk : ∀ q ∈ c, ∃ u, q.1 = CacheKey.textKey u) :
    ∀ q ∈ cacheSet c (CacheKey.textKey t) d, ∃ u, q.1 = CacheKey.textKey u := by
  unfold cacheSet
  by_cases hm : cacheHasKey c (CacheKey.textKey t) = true
  · simp only [hm, if_true]
    intro q hq
    rw [List.mem_map] at hq
    obtain ⟨r, hr, hrq⟩ := hq
    by_cases he : r.1 = CacheKey.textKey t
    · rw [← hrq]
      simp [he]
    · rw [← hrq]
      simp only [he, if_neg, if_false]
      exact htk r hr
  · simp only [Bool.not_eq_true] at hm
    simp only [hm, if_false]
    intro q hq
    rcases List.mem_append.mp hq with hq1 | hq2
    · exact htk q hq1
    · rw [List.mem_singleton.mp hq2]
      exact ⟨t, rfl⟩

/-- Folding text-keyed `cacheSet`s preserves the text-keys-only invariant. -/
theorem foldl_cacheSet_textKeys (docs : List SpacyDoc) :
    ∀ (c : List (CacheKey × SpacyDoc)),
      (∀ q ∈ c, ∃ u, q.1 = CacheKey.textKey u) →
      ∀ q ∈ docs.foldl (fun c' d => cacheSet c' (CacheKey.textKey d.text) d) c,
        ∃ u, q.1 = CacheKey.textKey u := by
  induction docs with
  | nil => intro c htk; exact htk
  | cons d rest ih =>
      intro c htk
      exact ih _ (cacheSet_textKeys c d.text d htk)

/-- `cacheSet` makes its key present. -/
theorem cacheHasKey_cacheSet_self (c : List (CacheKey × SpacyDoc)) (k : CacheKey)
    (d : SpacyDoc) : cacheHasKey (cacheSet c k d) k = true := by
  unfold cacheSet
  by_cases hm : cacheHasKey c k = true
  · simp only [hm, if_true]
    unfold cacheHasKey at hm ⊢
    rw [List.any_eq_true] at hm ⊢
    obtain ⟨q, hq, hqt⟩ := hm
    exact ⟨(k, d), List.mem_map.mpr ⟨q, hq, by simp [of_decide_eq_true hqt]⟩, by simp⟩
  · simp only [Bool.not_eq_true] at hm
    simp only [hm, if_false]
    unfold cacheHasKey
    rw [List.any_eq_true]
    exact ⟨(k, d), List.mem_append.mpr (Or.inr (List.mem_singleton.mpr rfl)), by simp⟩

/-- `cacheSet` never removes keys. -/
theorem cacheHasKey_cacheSet_mono (c : List (CacheKey × SpacyDoc)) (k' : CacheKey)
    (d : SpacyDoc) (k : CacheKey) (h : cacheHasKey c k = true) :
    cacheHasKey (cacheSet c k' d) k = true := by
  unfold cacheSet
  by_cases hm : cacheHasKey c k' = true
  · simp only [hm, if_true]
    unfold cacheHasKey at h ⊢
    rw [List.any_eq_true] at h ⊢
    obtain ⟨q, hq, hqt⟩ := h
    by_cases he : q.1 = k'
    · refine ⟨(k', d), List.mem_map.mpr ⟨q, hq, by simp [he]⟩, ?_⟩
      have : k = k' := by
        rw [← he]
        exact (of_decide_eq_true hqt).symm
      simp [this]
    · exact ⟨q, List.mem_map.mpr ⟨q, hq, by simp [he]⟩, hqt⟩
  · simp only [Bool.not_eq_true] at hm
    simp only [hm, if_false]
    unfold cacheHasKey at h ⊢
    rw [List.any_eq_true] at h ⊢
    obtain ⟨q, hq, hqt⟩ := h
    exact ⟨q, List.mem_append.mpr (Or.inl hq), hqt⟩

/-- Keys stay present through a fold of `cacheSet`s. -/
theorem foldl_cacheSet_hasKey_mono (docs : List SpacyDoc) :
    ∀ (c : List (CacheKey × SpacyDoc)) (k : CacheKey), cacheHasKey c k = true →
      cacheHasKey (docs.foldl (fun c' d => cacheSet c' (CacheKey.textKey d.text) d) c) k
        = true := by
  induction docs with
  | nil => intro c k h; exact h
  | cons d rest ih =>
      intro c k h
      exact ih _ k (cacheHasKey_cacheSet_mono c (CacheKey.textKey d.text) d k h)

/-- After the fold, every piped doc's text key is present. -/
theorem foldl_cacheSet_hasKey (docs : List SpacyDoc) :
    ∀ (c : List (CacheKey × SpacyDoc)) (d : SpacyDoc), d ∈ docs →
      cacheHasKey (docs.foldl (fun c' d' => cacheSet c' (CacheKey.textKey d'.text) d') c)
        (CacheKey.textKey d.text) = true := by
  induction docs with
  | nil => intro c d h; cases h
  | cons x rest ih =>
      intro c d hd
      rcases List.mem_cons.mp hd with hx | hrest
      · subst hx
        exact foldl_cacheSet_hasKey_mono rest _ _
          (cacheHasKey_cacheSet_self c (CacheKey.textKey d.text) d)
      · exact ih _ d hrest

/-! ## Claim C9 -/

/-- C9 counterexample: the claim states per-unique-text memoization within a
single batch call and a cache that does not persist across calls.  On the
code, (i) one batch call containing the same record twice pipes its text
twice — the `unseen` check compares `hash(e)` (an `int`) against text (`str`)
keys and never hits, so nothing is memoized even within the call; and (ii) the
call returns the instance with a non-empty `_cache` that the module-level
instance keeps, and a subsequent call on that instance still reprocesses the
cached text — the cache is persistent but never read back. -/
theorem C9_counterexample_cache_behaviour :
    c9p0.unseen_texts [exA, exA] = ["a", "a"]
    ∧ c9p0.call [exA, exA]
        = some ([{ text := "a" }, { text := "a" }],
            { cache := [(CacheKey.textKey "a", { text := "a" })] })
    ∧ (SpacyPreProcessor.mk [(CacheKey.textKey "a", { text := "a" })]).unseen_texts [exA]
        = ["a"] :=
  ⟨rfl, rfl, rfl⟩

/-- C9 (amended): `SpacyPreProcessor` keeps an instance-level cache that
persists across batch calls, but its seen/unseen membership test compares
example hashes against text keys, so cached entries are never reused: under
the invariant that every cache key is a text key (true initially and
preserved by every call), every call pipes every record's text again
(duplicates included), returns one doc per record in order, and stores the
results in the persistent cache, which keeps an entry per processed text and
again satisfies the invariant — so no later call reuses anything either. -/
theorem C9_cache_persistent_but_never_hit :
    ∀ (p : SpacyPreProcessor) (data : List Example),
      (∀ q ∈ p.cache, ∃ t, q.1 = CacheKey.textKey t) →
      p.unseen_texts data = data.map (fun e => e.text)
      ∧ p.seen_texts data = []
      ∧ p.call data
          = some (data.map (fun e => { text := e.text }),
              { cache := (nlpPipe (data.map (fun e => e.text))).foldl
                  (fun c d => cacheSet c (CacheKey.textKey d.text) d) p.cache })
      ∧ (∀ e ∈ data, cacheHasKey
            ((nlpPipe (data.map (fun e => e.text))).foldl
              (fun c d => cacheSet c (CacheKey.textKey d.text) d) p.cache)
            (CacheKey.textKey e.text) = true)
      ∧ (∀ q ∈ (nlpPipe (data.map (fun e => e.text))).foldl
            (fun c d => cacheSet c (CacheKey.textKey d.text) d) p.cache,
          ∃ t, q.1 = CacheKey.textKey t) := by
  intro p data htk
  have hunseen := unseen_texts_of_textKeys p data htk
  have hseen := seen_texts_of_textKeys p data htk
  refine ⟨hunseen, hseen, ?_, ?_, ?_⟩
  · unfold SpacyPreProcessor.call
    rw [hunseen, hseen]
    simp [nlpPipe, List.map_map]
  · intro e he
    have : ({ text := e.text } : SpacyDoc) ∈ nlpPipe (data.map (fun e => e.text)) := by
      unfold nlpPipe
      rw [List.map_map, List.mem_map]
      exact ⟨e, he, rfl⟩
    exact foldl_cacheSet_hasKey _ _ _ this
  · exact foldl_cacheSet_textKeys _ _ htk

/-- C9 witness: the amended theorem at the registered instance's empty initial
cache and the one-record batch `[exA]`. -/
theorem C9_cache_persistent_but_never_hit_witness :
    c9p0.unseen_texts [exA] = ["a"]
    ∧ c9p0.call [exA]
        = some ([{ text := "a" }], { cache := [(CacheKey.textKey "a", { text := "a" })] }) := by
  have h := C9_cache_persistent_but_never_hit c9p0 [exA] (fun q hq => by cases hq)
  exact ⟨by simpa using h.1, by simpa using h.2.2.1⟩

/-! ## Rollback lemmas -/

/-- Set insertion keeps existing members. -/
theorem setInsert_mem (s : List (Option ExampleHashData)) (x y : Option ExampleHashData)
    (h : y ∈ s) : y ∈ setInsert s x := by
  unfold setInsert
  by_cases hx : x ∈ s
  · simpa [hx]
  · simp [hx, List.mem_append, h]

/-- Set insertion contains the inserted element. -/
theorem setInsert_mem_self (s : List (Option ExampleHashData)) (x : Option ExampleHashData) :
    x ∈ setInsert s x := by
  unfold setInsert
  by_cases hx : x ∈ s
  · simp [hx]
  · simp [hx]

/-- The collection loop only grows the removal set. -/
theorem rollbackCollect_mono (store : ExampleStore) (ts : List Transformation) :
    ∀ (acc res : List (Option ExampleHashData) × List Example),
      rollbackCollect store acc ts = Except.ok res →
      ∀ x ∈ acc.1, x ∈ res.1 := by
  induction ts with
  | nil =>
      intro acc res h x hx
      simp only [rollbackCollect] at h
      injection h with h'
      rw [← h']
      exact hx
  | cons t rest ih =>
      intro acc res h x hx
      obtain ⟨pe, ex, ty⟩ := t
      cases ty with
      | EXAMPLE_ADDED =>
          simp only [rollbackCollect] at h
          exact ih _ res h x (setInsert_mem acc.1 ex x hx)
      | EXAMPLE_CHANGED =>
          simp only [rollbackCollect] at h
          cases hget : storeGetOpt store pe with
          | some e =>
              rw [hget] at h
              exact ih _ res h x (setInsert_mem acc.1 ex x hx)
          | none => rw [hget] at h; cases h
      | EXAMPLE_REMOVED =>
          simp only [rollbackCollect] at h
          cases hget : storeGetOpt store pe with
          | some e =>
              rw [hget] at h
              exact ih _ res h x hx
          | none => rw [hget] at h; cases h

/-- Every rolled-back `EXAMPLE_ADDED`/`EXAMPLE_CHANGED` transformation's new
hash ends up in the removal set. -/
theorem rollbackCollect_collects (store : ExampleStore) (ts : List Transformation) :
    ∀ (acc res : List (Option ExampleHashData) × List Example),
      rollbackCollect store acc ts = Except.ok res →
      ∀ t ∈ ts,
        (t.type = TransformationType.EXAMPLE_ADDED
          ∨ t.type = TransformationType.EXAMPLE_CHANGED) →
        t.example_ ∈ res.1 := by
  induction ts with
  | nil => intro acc res h t ht; cases ht
  | cons t0 rest ih =>
      intro acc res h t ht htype
      rcases List.mem_cons.mp ht with hteq | htrest
      · obtain ⟨pe, ex, ty⟩ := t0
        rw [hteq] at htype ⊢
        cases ty with
        | EXAMPLE_ADDED =>
            simp only [rollbackCollect] at h
            exact rollbackCollect_mono store rest _ res h ex
              (setInsert_mem_self acc.1 ex)
        | EXAMPLE_CHANGED =>
            simp only [rollbackCollect] at h
            cases hget : storeGetOpt store pe with
            | some e =>
                rw [hget] at h
                exact rollbackCollect_mono store rest _ res h ex
                  (setInsert_mem_self acc.1 ex)
            | none => rw [hget] at h; cases h
        | EXAMPLE_REMOVED => simp at htype
      · obtain ⟨pe, ex, ty⟩ := t0
        cases ty with
        | EXAMPLE_ADDED =>
            simp only [rollbackCollect] at h
            exact ih _ res h t htrest htype
        | EXAMPLE_CHANGED =>
            simp only [rollbackCollect] at h
            cases hget : storeGetOpt store pe with
            | some e => rw [hget] at h; exact ih _ res h t htrest htype
            | none => rw [hget] at h; cases h
        | EXAMPLE_REMOVED =>
            simp only [rollbackCollect] at h
            cases hget : storeGetOpt store pe with
            | some e => rw [hget] at h; exact ih _ res h t htrest htype
            | none => rw [hget] at h; cases h

/-- The deletion loop never resurrects an absent key. -/
theorem storeDeleteAll_not_contains (l : List (Option ExampleHashData)) :
    ∀ (s s' : ExampleStore), storeDeleteAll s l = Except.ok s' →
      ∀ h, s.contains h = false → s'.contains h = false := by
  induction l with
  | nil =>
      intro s s' hok h hc
      simp only [storeDeleteAll] at hok
      injection hok with hok'
      rw [← hok']
      exact hc
  | cons x rest ih =>
      intro s s' hok h hc
      cases x with
      | none => simp only [storeDeleteAll] at hok; cases hok
      | some h0 =>
          simp only [storeDeleteAll] at hok
          by_cases hm : s.contains h0 = true
          · rw [if_pos hm] at hok
            exact ih _ s' hok h (s.contains_erase_of_not_contains h h0 hc)
          · rw [if_neg hm] at hok
            cases hok

/-- Every hash in the removal list is absent from the store the deletion loop
returns. -/
theorem storeDeleteAll_deletes (l : List (Option ExampleHashData)) :
    ∀ (s s' : ExampleStore), storeDeleteAll s l = Except.ok s' →
      ∀ h, some h ∈ l → s'.contains h = false := by
  induction l with
  | nil => intro s s' _ h hmem; cases hmem
  | cons x rest ih =>
      intro s s' hok h hmem
      cases x with
      | none => simp only [storeDeleteAll] at hok; cases hok
      | some h0 =>
          simp only [storeDeleteAll] at hok
          by_cases hm : s.contains h0 = true
          · rw [if_pos hm] at hok
            rcases List.mem_cons.mp hmem with heq | hrest
            · injection heq with heq'
              subst heq'
              exact storeDeleteAll_not_contains rest _ s' hok _
                (s.contains_erase_self _)
            · exact ih _ s' hok h hrest
          · rw [if_neg hm] at hok
            cases hok

/-- A successful rollback factors through the collection and deletion loops. -/
theorem Dataset.rollback_ok_parts (ds : Dataset) (store : ExampleStore) (n : Int)
    (ds' : Dataset) (store' : ExampleStore)
    (hok : ds.rollback store n = Except.ok (ds', store')) :
    ∃ toRemove toAdd,
      rollbackCollect store ([], [])
          ((ds.operations.drop (ds.operations.length - n.toNat)).flatMap
            (fun op => op.transformations)) = Except.ok (toRemove, toAdd)
      ∧ storeDeleteAll store toRemove = Except.ok store' := by
  unfold Dataset.rollback at hok
  by_cases h1 : n < 1
  · rw [if_pos h1] at hok; cases hok
  · rw [if_neg h1] at hok
    by_cases h2 : n > (ds.operations.length : Int)
    · rw [if_pos h2] at hok; cases hok
    · rw [if_neg h2] at hok
      simp only [] at hok
      cases hc : rollbackCollect store ([], [])
          ((ds.operations.drop (ds.operations.length - n.toNat)).flatMap
            (fun op => op.transformations)) with
      | error e => rw [hc] at hok; cases hok
      | ok p =>
          rw [hc] at hok
          simp only [] at hok
          cases hd : storeDeleteAll store p.1 with
          | error e => rw [hd] at hok; simp only [] at hok; cases hok
          | ok s2 =>
              rw [hd] at hok
              simp only [] at hok
              injection hok with hok'
              refine ⟨p.1, p.2, rfl, ?_⟩
              rw [hd]
              have : s2 = store' := congrArg Prod.snd hok'
              rw [this]

/-! ## Claim C10 -/

/-- C10: a successful `rollback(n)` on the train split deletes from the shared
example store every hash recorded as the new-version hash of an
`EXAMPLE_ADDED` or `EXAMPLE_CHANGED` transformation of the rolled-back
operations; since a corpus's three datasets alias that one store, such
versions are no longer retrievable from any split afterwards (`contains` is
false and `get` raises for every split's lookups). -/
theorem C10_rollback_deletes_versions_from_shared_store :
    ∀ (c : Corpus) (n : Int) (c' : Corpus),
      c.rollback_train n = Except.ok c' →
      ∀ op ∈ c.train.operations.drop (c.train.operations.length - n.toNat),
        ∀ t ∈ op.transformations,
          (t.type = TransformationType.EXAMPLE_ADDED
            ∨ t.type = TransformationType.EXAMPLE_CHANGED) →
          ∀ h, t.example_ = some h →
            c'.example_store.contains h = false
            ∧ c'.example_store.get h = none := by
  intro c n c' hok op hop t ht htype h hex
  unfold Corpus.rollback_train at hok
  cases hr : c.train.rollback c.example_store n with
  | error e => rw [hr] at hok; cases hok
  | ok p =>
      rw [hr] at hok
      injection hok with hok'
      obtain ⟨toRemove, toAdd, hc, hd⟩ :=
        Dataset.rollback_ok_parts c.train c.example_store n p.1 p.2 (by rw [hr])
      have htflat : t ∈ (c.train.operations.drop
          (c.train.operations.length - n.toNat)).flatMap (fun o => o.transformations) := by
        rw [List.mem_flatMap]
        exact ⟨op, hop, ht⟩
      have hmem : t.example_ ∈ toRemove :=
        rollbackCollect_collects c.example_store _ _ _ hc t htflat htype
      rw [hex] at hmem
      have hcontains : p.2.contains h = false :=
        storeDeleteAll_deletes toRemove _ _ hd h hmem
      have hstore : c'.example_store = p.2 := by
        rw [← hok']
      rw [hstore]
      exact ⟨hcontains, p.2.get_eq_none_of_not_contains h hcontains⟩

/-- C10 witness: rolling back the change `exA → exA2` on the train split of
the concrete corpus makes the `exA2` version unretrievable from the shared
store. -/
theorem C10_rollback_deletes_versions_witness :
    c10Corpus.rollback_train 1 = Except.ok c10After
    ∧ c10After.example_store.contains (example_hash exA2) = false
    ∧ c10After.example_store.get (example_hash exA2) = none := by
  have h := C10_rollback_deletes_versions_from_shared_store c10Corpus 1 c10After rfl
    { name := "change_a"
      status := OperationStatus.COMPLETED
      examples_changed := 1
      transformations := [changedOf (example_hash exA) exA2] }
    (by decide)
    (changedOf (example_hash exA) exA2) (by decide)
    (Or.inr rfl) (example_hash exA2) rfl
  exact ⟨rfl, h.1, h.2⟩
